import Mathlib

/-!
Shallow embedding of the prompt-composition and transformation-request pipeline
of the AI Text Transformer Toolbox: the functions of `prompt_utils.py` and
`ollama_api.py`, and the prompt-handling logic of `app.py` (`transform_text`,
`categorize_prompts`, the selection limit in `main`).

Python dicts are embedded as ordered association lists (Python dicts preserve
insertion order); `dict.get` with a default becomes `Option.getD`; Python
string truthiness (`if s:`) becomes a nonemptiness test; a raised Python
exception becomes `Except.error`.
-/

/-- Python substring test `needle in hay` on strings, as list-infix of the
underlying character lists. -/
def strIn (needle hay : String) : Bool :=
  decide (needle.data <:+: hay.data)

/-- A catalog entry as stored in the prompts JSON. `prompt_utils` reads each
field with `dict.get` and a default, so every field is optional here. -/
structure PromptData where
  name : Option String
  description : Option String
  prompt : Option String
  requires_json : Option Bool
deriving DecidableEq, Repr

/-- The prompt catalog: a Python dict keyed by prompt id, iterated in
insertion order, embedded as an association list. -/
abbrev PromptsData := List (String × PromptData)

/-- Embedding of `prompt_utils.get_prompt_by_id`: `prompts_data.get(prompt_id, {})`;
an absent id yields the empty dict, i.e. the entry with every field absent. -/
def get_prompt_by_id (prompt_id : String) (prompts_data : PromptsData) : PromptData :=
  (List.lookup prompt_id prompts_data).getD ⟨none, none, none, none⟩

/-- Embedding of `prompt_utils.get_prompt_text`:
`get_prompt_by_id(prompt_id, prompts_data).get("prompt", "")`. -/
def get_prompt_text (prompt_id : String) (prompts_data : PromptsData) : String :=
  (get_prompt_by_id prompt_id prompts_data).prompt.getD ""

/-- Embedding of `prompt_utils.get_default_prompt`: the built-in
"Basic Cleanup" transformation definition. -/
def get_default_prompt : PromptData where
  name := some "Basic Cleanup"
  prompt := some "Take the following text and refine it to add missing punctuation, resolve typos, add paragraph spacing, and generally enhance the presentation of the text while preserving the original meaning."
  requires_json := some false
  description := some "Transforms text using basic cleanup style or format"

/-- Python `sep.join(l)`: elements of `l` in order with `sep` between
consecutive elements. -/
def strJoin (sep : String) : List String → String
  | [] => ""
  | [s] => s
  | s :: t :: rest => s ++ sep ++ strJoin sep (t :: rest)

/-- The fixed trailing directive of `ollama_api.concatenate_prompts`; the code
stores it with its leading newline as `final_instruction`. -/
def final_instruction : String :=
  "\nApply ALL of the above transformations to the user's input text."

/-- Embedding of `ollama_api.concatenate_prompts`: the empty list gives `""`,
otherwise `"\n\n".join(prompts) + final_instruction`. -/
def concatenate_prompts (prompts : List String) : String :=
  if prompts = [] then "" else strJoin "\n\n" prompts ++ final_instruction

/-- Loop body of the prompt-resolution loop of `app.transform_text`:
`get_prompt_text` is called and the text is appended only when Python finds it
truthy, i.e. nonempty. -/
def selStep (prompts_data : PromptsData) (acc : List String)
    (prompt_id : String) : List String :=
  let prompt_text := get_prompt_text prompt_id prompts_data
  if prompt_text ≠ "" then acc ++ [prompt_text] else acc

/-- Embedding of the prompt-resolution loop of `app.transform_text`: the loop
body `selStep` applied to each selected id in order, starting from `[]`. -/
def selected_prompts (selected_transformations : List String)
    (prompts_data : PromptsData) : List String :=
  selected_transformations.foldl (selStep prompts_data) []

/-- Embedding of the fallback step of `app.transform_text`: if no transformation
resolved to a text, the default prompt's instruction text is appended. The
Python code indexes `default_prompt["prompt"]`, which succeeds because
`get_default_prompt` carries that key. -/
def resolve_prompts (selected_transformations : List String)
    (prompts_data : PromptsData) : List String :=
  let sp := selected_prompts selected_transformations prompts_data
  if sp = [] then [get_default_prompt.prompt.getD ""] else sp

/-- Per-identifier outcome of the resolution loop, as an `Option`. -/
def resolveStep (prompts_data : PromptsData) (prompt_id : String) : Option String :=
  let prompt_text := get_prompt_text prompt_id prompts_data
  if prompt_text ≠ "" then some prompt_text else none

/-- Specification-side resolution, following the claim's words: keep exactly
the identifiers present in the catalog, in order, and take their texts. -/
def spec_resolved_texts (sel : List String) (d : PromptsData) : List String :=
  (sel.filter (fun prompt_id => (List.lookup prompt_id d).isSome)).map
    (fun prompt_id => get_prompt_text prompt_id d)

/-- Embedding of `prompt_utils.filter_prompts`: an empty (falsy) search term
returns the input dict itself; otherwise the term is lowercased and an entry is
kept when the term occurs in the lowercased name, description, or id, in the
order the Python condition tests them. -/
def filter_prompts (prompts_data : PromptsData) (search_term : String) : PromptsData :=
  if search_term = "" then prompts_data
  else
    let st := search_term.toLower
    prompts_data.foldl
      (fun filtered p =>
        let lname := (p.2.name.getD "").toLower
        let ldescr := (p.2.description.getD "").toLower
        if strIn st lname || strIn st ldescr || strIn st p.1.toLower then
          filtered ++ [p]
        else filtered)
      []

/-- Specification-side match, following the claim's words: the identifier,
name, or description contains the term as a case-insensitive substring. -/
def matchesSearchCI (term : String) (p : String × PromptData) : Bool :=
  strIn term.toLower p.1.toLower
    || strIn term.toLower (p.2.name.getD "").toLower
    || strIn term.toLower (p.2.description.getD "").toLower

/-- Embedding of the selection limit in `app.main`: when more than 10
transformations are selected, a warning is shown (the `Bool` component) and the
selection is cut to `selected_transformations[:10]`. -/
def limit_selected_transformations (selected_transformations : List String) :
    List String × Bool :=
  if selected_transformations.length > 10 then
    (selected_transformations.take 10, true)
  else (selected_transformations, false)

/-- The category buckets of `app.categorize_prompts`, in the dict's insertion
order. -/
def categoryNames : List String :=
  ["General", "Format Conversion", "Style", "Professional", "Academic",
   "Creative", "Technical", "Social Media", "Prompting", "Other"]

/-- Python `any(word in name or word in description for word in words)` over
the lowercased name and description. -/
def matchesAny (words : List String) (lname ldescr : String) : Bool :=
  words.any (fun word => strIn word lname || strIn word ldescr)

/-- The if/elif chain of `app.categorize_prompts`, choosing the bucket for an
entry from its lowercased name and description. -/
def chooseCategory (lname ldescr : String) : String :=
  if matchesAny ["cleanup", "extract", "anonymization", "bullet", "summary"] lname ldescr then
    "General"
  else if matchesAny ["email", "letter", "minutes", "documentation", "status", "responder"] lname ldescr then
    "Professional"
  else if matchesAny ["academic", "scientific", "paper"] lname ldescr then
    "Academic"
  else if matchesAny ["blog", "social", "media"] lname ldescr then
    "Social Media"
  else if matchesAny ["poetry", "poem", "shakespeare", "tolkien", "creative"] lname ldescr then
    "Creative"
  else if matchesAny ["code", "technical", "development", "software"] lname ldescr then
    "Technical"
  else if matchesAny ["format", "convert", "transform"] lname ldescr then
    "Format Conversion"
  else if matchesAny ["tone", "style", "formal", "casual"] lname ldescr then
    "Style"
  else if matchesAny ["prompt", "chatgpt", "ai"] lname ldescr then
    "Prompting"
  else "Other"

/-- Append an entry to the bucket named `c` of a category association list
(Python `categories[c].append(entry)`). -/
def addToCategory (cats : List (String × List (String × String)))
    (c : String) (entry : String × String) : List (String × List (String × String)) :=
  cats.map (fun p => if p.1 = c then (p.1, p.2 ++ [entry]) else p)

/-- One iteration of the mapping loop of `app.categorize_prompts`: lowercase
name and description, choose the bucket, append `(prompt_id, display name)`
with the display name defaulting to "Unknown". -/
def fillStep (cats : List (String × List (String × String)))
    (p : String × PromptData) : List (String × List (String × String)) :=
  let lname := (p.2.name.getD "").toLower
  let ldescr := (p.2.description.getD "").toLower
  addToCategory cats (chooseCategory lname ldescr) (p.1, p.2.name.getD "Unknown")

/-- Comparator of the final per-bucket sort of `app.categorize_prompts`
(Python `sort` with key `x[1]`, the display name). -/
def byDisplayName (a b : String × String) : Bool :=
  decide (a.2 ≤ b.2)

/-- Embedding of `app.categorize_prompts`: start from the fixed empty buckets,
route every catalog entry to the bucket chosen by the if/elif chain, then sort
each bucket by display name. -/
def categorize_prompts (prompts_data : PromptsData) :
    List (String × List (String × String)) :=
  let init := categoryNames.map (fun c => (c, ([] : List (String × String))))
  let filled := prompts_data.foldl fillStep init
  filled.map (fun p => (p.1, p.2.mergeSort byDisplayName))

/-- Sum of the bucket sizes of a category association list. -/
def totalSize (cats : List (String × List (String × String))) : Nat :=
  (cats.map (fun p => p.2.length)).sum

/-- Boolean check that a bucket is sorted by display name. -/
def sortedByName : List (String × String) → Bool
  | [] => true
  | [_] => true
  | a :: b :: t => decide (a.2 ≤ b.2) && sortedByName (b :: t)

/-- The priority-ordered rule list of the categorization, specification-side:
bucket name paired with its keyword set, evaluated in order, first match wins,
with "Other" as the catch-all. -/
def categoryRules : List (String × List String) :=
  [("General", ["cleanup", "extract", "anonymization", "bullet", "summary"]),
   ("Professional", ["email", "letter", "minutes", "documentation", "status", "responder"]),
   ("Academic", ["academic", "scientific", "paper"]),
   ("Social Media", ["blog", "social", "media"]),
   ("Creative", ["poetry", "poem", "shakespeare", "tolkien", "creative"]),
   ("Technical", ["code", "technical", "development", "software"]),
   ("Format Conversion", ["format", "convert", "transform"]),
   ("Style", ["tone", "style", "formal", "casual"]),
   ("Prompting", ["prompt", "chatgpt", "ai"])]

/-- Specification-side bucket choice: the first rule of the priority-ordered
list whose keyword set matches, "Other" when none matches. -/
def firstMatchCategory (lname ldescr : String) : String :=
  ((categoryRules.find? (fun r => matchesAny r.2 lname ldescr)).map
    (fun r => r.1)).getD "Other"

/-- Outcome of an HTTP request issued through the `requests` library: either a
response object reaches the caller, or a `requests.RequestException` is raised
(which, since requests 2.27, includes the JSON decoding error that
`response.json()` raises on a non-JSON body). -/
inductive RequestOutcome (β : Type) where
  | resp (r : β)
  | exc (msg : String)
deriving DecidableEq

/-- A response to `POST /api/generate` as `OllamaAPI.generate_text` consumes
it: numeric status code, the optional "response" field of the JSON payload
(read by `response.json().get("response", "")`), and the raw body
`response.text`. -/
structure GenerateResponse where
  status_code : Nat
  response_field : Option String
  text : String
deriving DecidableEq

/-- Embedding of the response handling of `OllamaAPI.generate_text`: on status
200 the extracted "response" field (empty string when absent); otherwise the
error string embedding status code and raw body; on a raised
`requests.RequestException`, the connect-failure string embedding the
exception text. -/
def generate_text (out : RequestOutcome GenerateResponse) : String :=
  match out with
  | .resp r =>
      if r.status_code == 200 then r.response_field.getD ""
      else "Failed to generate text. Error: " ++ toString r.status_code ++ " - " ++ r.text
  | .exc e => "Failed to connect to Ollama API: " ++ e

/-- Embedding of `OllamaAPI.check_connection`: `GET` the base address and
return `status_code == 200`; a raised `requests.RequestException` yields
`False`. -/
def check_connection (out : RequestOutcome Nat) : Bool :=
  match out with
  | .resp status_code => status_code == 200
  | .exc _ => false

/-- One element of the "models" array of the `GET /api/tags` payload; only the
"name" key is read, by direct indexing `model["name"]`, so it is optional
here to model its possible absence. -/
structure ModelEntry where
  name : Option String
deriving DecidableEq

/-- The parsed `GET /api/tags` payload: the "models" key is read with
`.get("models", [])`, so it is optional. -/
structure TagsPayload where
  models : Option (List ModelEntry)
deriving DecidableEq

/-- A response to `GET /api/tags` as `OllamaAPI.list_models` consumes it;
`payload = none` stands for a body that is not valid JSON, in which case
`response.json()` raises a `requests`-caught JSON decoding error. -/
structure TagsResponse where
  status_code : Nat
  payload : Option TagsPayload
deriving DecidableEq

/-- Python `[model["name"] for model in models]`: left to right, indexing
`model["name"]` raises `KeyError` when the key is absent, embedded as
`Except.error`. -/
def extract_model_names : List ModelEntry → Except String (List String)
  | [] => .ok []
  | e :: rest =>
      match e.name with
      | none => .error "KeyError: name"
      | some n => (extract_model_names rest).map (fun names => n :: names)

/-- Embedding of `OllamaAPI.list_models`. `Except.error` models an uncaught
Python exception escaping the function; `requests.RequestException` — which
since requests 2.27 includes the JSON decoding failure of `response.json()` —
is caught and yields `[]`, as does any non-200 status. -/
def list_models (out : RequestOutcome TagsResponse) : Except String (List String) :=
  match out with
  | .exc _ => .ok []
  | .resp r =>
      if r.status_code == 200 then
        match r.payload with
        | none => .ok []
        | some p => extract_model_names (p.models.getD [])
      else .ok []

/-- The JSON payload of `POST /api/generate` as `OllamaAPI.generate_text`
builds it; the optional "system" key is `none` when absent. The temperature is
carried opaquely (the code never computes with it), so its type is a
parameter. -/
structure GeneratePayload (α : Type) where
  model : String
  prompt : String
  temperature : α
  stream : Bool
  system : Option String
deriving DecidableEq

/-- Python truthiness of an optional string: `None` and `""` are falsy. -/
def pyTruthyStr : Option String → Bool
  | none => false
  | some s => !(s == "")

/-- Embedding of the payload construction of `OllamaAPI.generate_text`: the
base payload carries model, prompt, temperature and `stream: False`; the
"system" key is added only under `if system_prompt:`. -/
def build_generate_payload {α : Type} (model prompt : String)
    (system_prompt : Option String) (temperature : α) : GeneratePayload α :=
  let payload : GeneratePayload α :=
    { model := model, prompt := prompt, temperature := temperature,
      stream := false, system := none }
  if pyTruthyStr system_prompt then { payload with system := system_prompt }
  else payload

theorem foldl_append_hoist (sep p q : String) (l : List String) :
    p ++ l.foldl (fun acc s => acc ++ sep ++ s) q =
      l.foldl (fun acc s => acc ++ sep ++ s) (p ++ q) := by
  induction l generalizing q with
  | nil => rfl
  | cons b t ih =>
      simp only [List.foldl_cons]
      rw [ih, ← String.append_assoc, ← String.append_assoc]

theorem strJoin_cons_eq_foldl (sep : String) (a : String) (l : List String) :
    strJoin sep (a :: l) = l.foldl (fun acc s => acc ++ sep ++ s) a := by
  induction l generalizing a with
  | nil => rfl
  | cons b t ih =>
      simp only [strJoin, List.foldl_cons]
      rw [ih b, foldl_append_hoist]

/-- C1: the Prompt Composer satisfies the exact equations: compose of the empty
sequence is the empty string; compose of `[a]` is `a` followed by one newline
and the fixed trailing directive; compose of `[a, b]` is
`a ++ "\n\n" ++ b ++ "\n" ++ directive`; and for every non-empty input the
texts appear joined by double newlines in exactly the input order with the
directive appended once at the end. -/
theorem C1_concatenate_prompts_equations :
    concatenate_prompts [] = ""
    ∧ (∀ a : String, concatenate_prompts [a] =
        a ++ "\n" ++ "Apply ALL of the above transformations to the user's input text.")
    ∧ (∀ a b : String, concatenate_prompts [a, b] =
        a ++ "\n\n" ++ b ++ "\n"
          ++ "Apply ALL of the above transformations to the user's input text.")
    ∧ (∀ (a : String) (l : List String), concatenate_prompts (a :: l) =
        l.foldl (fun acc s => acc ++ "\n\n" ++ s) a ++ "\n"
          ++ "Apply ALL of the above transformations to the user's input text.") := by
  have hdir : final_instruction =
      "\n" ++ "Apply ALL of the above transformations to the user's input text." := rfl
  refine ⟨rfl, ?_, ?_, ?_⟩
  · intro a
    simp [concatenate_prompts, strJoin, hdir, String.append_assoc]
  · intro a b
    simp [concatenate_prompts, strJoin, hdir, String.append_assoc]
  · intro a l
    simp [concatenate_prompts, strJoin_cons_eq_foldl, hdir, String.append_assoc]

theorem selected_prompts_foldl_general (sel : List String) (d : PromptsData)
    (acc : List String) :
    sel.foldl (selStep d) acc = acc ++ sel.filterMap (resolveStep d) := by
  induction sel generalizing acc with
  | nil => simp
  | cons x t ih =>
      rw [List.foldl_cons, ih]
      simp only [List.filterMap_cons, selStep, resolveStep]
      by_cases hx : get_prompt_text x d = ""
      · simp [hx]
      · simp [hx, List.append_assoc]

theorem selected_prompts_eq_filterMap (sel : List String) (d : PromptsData) :
    selected_prompts sel d = sel.filterMap (resolveStep d) := by
  simpa [selected_prompts] using selected_prompts_foldl_general sel d []

theorem get_prompt_text_of_absent (prompt_id : String) (d : PromptsData)
    (h : List.lookup prompt_id d = none) : get_prompt_text prompt_id d = "" := by
  simp [get_prompt_text, get_prompt_by_id, h]

theorem filterMap_resolveStep_eq (sel : List String) (d : PromptsData)
    (h : ∀ prompt_id ∈ sel, ∀ e : PromptData,
      List.lookup prompt_id d = some e → e.prompt.getD "" ≠ "") :
    sel.filterMap (resolveStep d) =
      (sel.filter (fun prompt_id => (List.lookup prompt_id d).isSome)).map
        (fun prompt_id => get_prompt_text prompt_id d) := by
  induction sel with
  | nil => rfl
  | cons x t ih =>
      have hx := h x (List.mem_cons_self x t)
      have ht : ∀ prompt_id ∈ t, ∀ e : PromptData,
          List.lookup prompt_id d = some e → e.prompt.getD "" ≠ "" :=
        fun i hi => h i (List.mem_cons_of_mem x hi)
      cases hlk : List.lookup x d with
      | none =>
          have hempty : get_prompt_text x d = "" := get_prompt_text_of_absent x d hlk
          simp [List.filterMap_cons, List.filter_cons, resolveStep, hempty, hlk, ih ht]
      | some e =>
          have hne : get_prompt_text x d ≠ "" := by
            simpa [get_prompt_text, get_prompt_by_id, hlk] using hx e hlk
          simp [List.filterMap_cons, List.filter_cons, resolveStep, hne, hlk, ih ht]

/-- C2: resolution returns the instruction texts of the resolvable identifiers
in exactly the selection's relative order, silently skipping identifiers absent
from the catalog; whenever the resulting sequence is empty (empty selection, or
every identifier unresolvable) exactly one fallback — the built-in
"Basic Cleanup" default — is substituted, so the Composer never receives zero
instructions. Hypothesis: every selected identifier present in the catalog
carries a nonempty instruction text (identifiers breaking this are the subject
of the separate claim about empty instruction texts). -/
theorem C2_resolve_order_skip_fallback (sel : List String) (d : PromptsData)
    (h : ∀ prompt_id ∈ sel, ∀ e : PromptData,
      List.lookup prompt_id d = some e → e.prompt.getD "" ≠ "") :
    resolve_prompts sel d =
      (if spec_resolved_texts sel d = [] then [get_default_prompt.prompt.getD ""]
       else spec_resolved_texts sel d)
    ∧ resolve_prompts sel d ≠ []
    ∧ get_default_prompt.name = some "Basic Cleanup" := by
  have key : selected_prompts sel d = spec_resolved_texts sel d := by
    rw [selected_prompts_eq_filterMap, spec_resolved_texts]
    exact filterMap_resolveStep_eq sel d h
  refine ⟨by rw [resolve_prompts, key], ?_, rfl⟩
  rw [resolve_prompts]
  by_cases hsp : selected_prompts sel d = [] <;> simp [hsp]

/-- C2 witness: a catalog with one entry; selecting the known id and an unknown
id yields exactly the known entry's text, in order, with no fallback. -/
theorem C2_resolve_order_skip_fallback_witness :
    (∀ prompt_id ∈ ["formal_email", "missing_id"], ∀ e : PromptData,
      List.lookup prompt_id
        [("formal_email", PromptData.mk (some "Formal Email") none (some "Make it formal.") none)]
        = some e → e.prompt.getD "" ≠ "")
    ∧ resolve_prompts ["formal_email", "missing_id"]
        [("formal_email", PromptData.mk (some "Formal Email") none (some "Make it formal.") none)] ≠ [] := by
  refine ⟨by decide, ?_⟩
  exact (C2_resolve_order_skip_fallback ["formal_email", "missing_id"]
    [("formal_email", PromptData.mk (some "Formal Email") none (some "Make it formal.") none)]
    (by decide)).2.1

/-- C9: an identifier whose catalog entry has a missing or empty instruction
text field contributes nothing to the resolved sequence, and if every selected
identifier is of this kind the single Basic Cleanup fallback is substituted
exactly as for an empty selection. -/
theorem C9_empty_text_entries_skipped (d : PromptsData) :
    (∀ (pre post : List String) (prompt_id : String) (e : PromptData),
      List.lookup prompt_id d = some e → e.prompt.getD "" = "" →
      resolve_prompts (pre ++ prompt_id :: post) d = resolve_prompts (pre ++ post) d)
    ∧ (∀ sel : List String,
      (∀ prompt_id ∈ sel, ∃ e : PromptData,
        List.lookup prompt_id d = some e ∧ e.prompt.getD "" = "") →
      resolve_prompts sel d = resolve_prompts [] d) := by
  have hstep : ∀ (prompt_id : String) (e : PromptData),
      List.lookup prompt_id d = some e → e.prompt.getD "" = "" →
      resolveStep d prompt_id = none := by
    intro prompt_id e hlk he
    have htext : get_prompt_text prompt_id d = "" := by
      simp [get_prompt_text, get_prompt_by_id, hlk, he]
    simp [resolveStep, htext]
  constructor
  · intro pre post prompt_id e hlk he
    rw [resolve_prompts, resolve_prompts, selected_prompts_eq_filterMap,
      selected_prompts_eq_filterMap, List.filterMap_append, List.filterMap_append,
      List.filterMap_cons, hstep prompt_id e hlk he]
  · intro sel hall
    have hnone : sel.filterMap (resolveStep d) = [] := by
      rw [List.filterMap_eq_nil_iff]
      intro prompt_id hmem
      obtain ⟨e, hlk, he⟩ := hall prompt_id hmem
      exact hstep prompt_id e hlk he
    rw [resolve_prompts, resolve_prompts, selected_prompts_eq_filterMap, hnone]
    rfl

/-- C9 witness: a one-entry catalog whose entry has an empty instruction text;
selecting only that id resolves to the same result as the empty selection. -/
theorem C9_empty_text_entries_skipped_witness :
    resolve_prompts ["empty_one"]
        [("empty_one", PromptData.mk (some "Empty One") none (some "") none)]
      = resolve_prompts []
        [("empty_one", PromptData.mk (some "Empty One") none (some "") none)] :=
  (C9_empty_text_entries_skipped
    [("empty_one", PromptData.mk (some "Empty One") none (some "") none)]).2
    ["empty_one"]
    (by intro prompt_id hmem
        refine ⟨PromptData.mk (some "Empty One") none (some "") none, ?_, rfl⟩
        cases hmem with
        | head => rfl
        | tail _ h => cases h)

theorem foldl_filter_general {α : Type} (q : α → Bool) (l : List α)
    (acc : List α) :
    l.foldl (fun acc p => if q p then acc ++ [p] else acc) acc =
      acc ++ l.filter q := by
  induction l generalizing acc with
  | nil => simp
  | cons x t ih =>
      rw [List.foldl_cons, ih]
      by_cases hx : q x = true
      · simp [hx, List.filter_cons, List.append_assoc]
      · simp only [Bool.not_eq_true] at hx
        simp [hx, List.filter_cons]

/-- C7: filtering with the empty search term is the identity on the catalog
mapping, and filtering with a non-empty term keeps exactly the entries whose
identifier, name, or description contains the term as a case-insensitive
substring, with entry values unchanged and in catalog order. -/
theorem C7_filter_prompts (d : PromptsData) (search_term : String) :
    filter_prompts d "" = d
    ∧ (search_term ≠ "" →
        filter_prompts d search_term = d.filter (matchesSearchCI search_term)) := by
  refine ⟨rfl, ?_⟩
  intro hne
  rw [filter_prompts]
  simp only [hne, if_false]
  rw [foldl_filter_general
    (fun p => strIn search_term.toLower (p.2.name.getD "").toLower
      || strIn search_term.toLower (p.2.description.getD "").toLower
      || strIn search_term.toLower p.1.toLower) d []]
  rw [List.nil_append]
  apply List.filter_congr
  intro p _
  simp only [matchesSearchCI]
  by_cases h1 : strIn search_term.toLower (p.2.name.getD "").toLower <;>
    by_cases h2 : strIn search_term.toLower (p.2.description.getD "").toLower <;>
      by_cases h3 : strIn search_term.toLower p.1.toLower <;>
        simp [h1, h2, h3]

/-- C7 witness: a two-entry catalog searched with "EMAIL" keeps exactly the
entries matching case-insensitively. -/
theorem C7_filter_prompts_witness :
    ("EMAIL" : String) ≠ ""
    ∧ filter_prompts
        [("formal_email", PromptData.mk (some "Formal Email") (some "Make text a formal email") none none),
         ("poem", PromptData.mk (some "Poem") (some "Rewrite as a poem") none none)]
        "EMAIL"
      = List.filter (matchesSearchCI "EMAIL")
        [("formal_email", PromptData.mk (some "Formal Email") (some "Make text a formal email") none none),
         ("poem", PromptData.mk (some "Poem") (some "Rewrite as a poem") none none)] :=
  ⟨by decide,
   (C7_filter_prompts
     [("formal_email", PromptData.mk (some "Formal Email") (some "Make text a formal email") none none),
      ("poem", PromptData.mk (some "Poem") (some "Rewrite as a poem") none none)]
     "EMAIL").2 (by decide)⟩

/-- C8: whenever more than 10 identifiers are presented, the selection applied
is exactly the first 10 in presentation order and a non-fatal advisory is
signalled; selections of 10 or fewer pass through unchanged with no advisory;
in particular presenting 12 identifiers yields exactly the first 10. -/
theorem C8_selection_limit :
    (∀ sel : List String, (limit_selected_transformations sel).1 = sel.take 10)
    ∧ (∀ sel : List String,
        (limit_selected_transformations sel).2 = decide (sel.length > 10))
    ∧ (∀ sel : List String, sel.length ≤ 10 →
        limit_selected_transformations sel = (sel, false))
    ∧ (∀ a b c d e f g h i j k l : String,
        limit_selected_transformations [a, b, c, d, e, f, g, h, i, j, k, l] =
          ([a, b, c, d, e, f, g, h, i, j], true)) := by
  refine ⟨?_, ?_, ?_, ?_⟩
  · intro sel
    rw [limit_selected_transformations]
    by_cases hlen : sel.length > 10
    · simp [hlen]
    · have hle : sel.length ≤ 10 := Nat.le_of_not_lt hlen
      simp [hlen, List.take_of_length_le hle]
  · intro sel
    rw [limit_selected_transformations]
    by_cases hlen : sel.length > 10 <;> simp [hlen]
  · intro sel hle
    rw [limit_selected_transformations]
    simp [Nat.not_lt_of_le hle]
  · intro a b c d e f g h i j k l
    rfl

/-- C8 witness: a one-element selection passes through unchanged with no
advisory. -/
theorem C8_selection_limit_witness :
    (["basic_cleanup"] : List String).length ≤ 10
    ∧ limit_selected_transformations ["basic_cleanup"] = (["basic_cleanup"], false) :=
  ⟨by decide, C8_selection_limit.2.2.1 ["basic_cleanup"] (by decide)⟩

theorem addToCategory_keys (cats : List (String × List (String × String)))
    (c : String) (entry : String × String) :
    (addToCategory cats c entry).map (fun p => p.1) = cats.map (fun p => p.1) := by
  rw [addToCategory, List.map_map]
  apply List.map_congr_left
  intro x _
  by_cases hx : x.1 = c <;> simp [hx]

theorem totalSize_addToCategory (cats : List (String × List (String × String)))
    (c : String) (entry : String × String) :
    totalSize (addToCategory cats c entry) =
      totalSize cats + (cats.map (fun p => p.1)).count c := by
  induction cats with
  | nil => rfl
  | cons x t ih =>
      by_cases hx : x.1 = c
      · simp [addToCategory, totalSize, hx, List.count_cons] at ih ⊢
        omega
      · simp [addToCategory, totalSize, hx, List.count_cons, Ne.symm hx] at ih ⊢
        omega

theorem chooseCategory_mem (lname ldescr : String) :
    chooseCategory lname ldescr ∈ categoryNames := by
  rw [chooseCategory]
  split_ifs <;> decide

theorem count_categoryNames (c : String) (hc : c ∈ categoryNames) :
    categoryNames.count c = 1 :=
  List.count_eq_one_of_mem (by decide) hc

theorem foldl_fillStep_keys (d : PromptsData)
    (cats : List (String × List (String × String))) :
    (d.foldl fillStep cats).map (fun p => p.1) = cats.map (fun p => p.1) := by
  induction d generalizing cats with
  | nil => rfl
  | cons x t ih =>
      rw [List.foldl_cons, ih]
      simp only [fillStep]
      rw [addToCategory_keys]

theorem totalSize_foldl_fillStep (d : PromptsData)
    (cats : List (String × List (String × String)))
    (hkeys : cats.map (fun p => p.1) = categoryNames) :
    totalSize (d.foldl fillStep cats) = totalSize cats + d.length := by
  induction d generalizing cats with
  | nil => simp
  | cons x t ih =>
      rw [List.foldl_cons]
      have hkeys2 : (fillStep cats x).map (fun p => p.1) = categoryNames := by
        simp only [fillStep]
        rw [addToCategory_keys, hkeys]
      rw [ih (fillStep cats x) hkeys2]
      have hsize : totalSize (fillStep cats x) = totalSize cats + 1 := by
        simp only [fillStep]
        rw [totalSize_addToCategory, hkeys,
          count_categoryNames _ (chooseCategory_mem _ _)]
      rw [hsize, List.length_cons]
      omega

theorem totalSize_map_sort (cats : List (String × List (String × String))) :
    totalSize (cats.map (fun p => (p.1, p.2.mergeSort byDisplayName))) =
      totalSize cats := by
  induction cats with
  | nil => rfl
  | cons x t ih =>
      simp only [totalSize, List.map_cons, List.sum_cons, List.length_mergeSort] at ih ⊢
      omega

theorem lookup_addToCategory (cats : List (String × List (String × String)))
    (c c' : String) (entry : String × String) :
    List.lookup c (addToCategory cats c' entry) =
      (List.lookup c cats).map (fun b => if c' = c then b ++ [entry] else b) := by
  induction cats with
  | nil => rfl
  | cons x t ih =>
      obtain ⟨k, v⟩ := x
      simp only [addToCategory] at ih ⊢
      rw [List.map_cons]
      by_cases hk : k = c'
      · rw [if_pos hk]
        by_cases hc : c = k
        · subst hc
          subst hk
          simp [List.lookup]
        · have hbeq : (c == k) = false := by simp [hc]
          subst hk
          simp [List.lookup, hbeq, ih]
      · rw [if_neg hk]
        by_cases hc : c = k
        · subst hc
          have hk2 : ¬(c' = c) := fun h => hk h.symm
          simp [List.lookup, hk2]
        · have hbeq : (c == k) = false := by simp [hc]
          simp [List.lookup, hbeq, ih]

theorem lookup_foldl_fillStep (d : PromptsData)
    (cats : List (String × List (String × String))) (c : String) :
    List.lookup c (d.foldl fillStep cats) =
      (List.lookup c cats).map (fun b =>
        b ++ (d.filter (fun p =>
            chooseCategory (p.2.name.getD "").toLower (p.2.description.getD "").toLower
              = c)).map
          (fun p => (p.1, p.2.name.getD "Unknown"))) := by
  induction d generalizing cats with
  | nil => cases hlk : List.lookup c cats <;> simp [hlk]
  | cons x t ih =>
      rw [List.foldl_cons, ih (fillStep cats x)]
      simp only [fillStep]
      rw [lookup_addToCategory]
      cases hlk : List.lookup c cats with
      | none => simp
      | some b =>
          by_cases hx : chooseCategory (x.2.name.getD "").toLower
              (x.2.description.getD "").toLower = c
          · simp [hx, List.filter_cons, List.append_assoc]
          · simp [hx, List.filter_cons]

theorem lookup_map_sort (cats : List (String × List (String × String)))
    (c : String) :
    List.lookup c (cats.map (fun p => (p.1, p.2.mergeSort byDisplayName))) =
      (List.lookup c cats).map (fun b => b.mergeSort byDisplayName) := by
  induction cats with
  | nil => rfl
  | cons x t ih =>
      obtain ⟨k, v⟩ := x
      by_cases hc : c = k
      · subst hc
        simp [List.lookup]
      · have hbeq : (c == k) = false := by simp [hc]
        simp [List.lookup, hbeq, ih]

theorem lookup_initCats (c : String) (hc : c ∈ categoryNames) :
    List.lookup c (categoryNames.map (fun n => (n, ([] : List (String × String)))))
      = some [] := by
  fin_cases hc <;> rfl

theorem sortedByName_of_pairwise (l : List (String × String))
    (h : l.Pairwise (fun a b => a.2 ≤ b.2)) : sortedByName l = true := by
  induction l with
  | nil => rfl
  | cons a t ih =>
      cases t with
      | nil => rfl
      | cons b t2 =>
          rcases List.pairwise_cons.mp h with ⟨hab, ht⟩
          have h1 : a.2 ≤ b.2 := hab b (List.mem_cons_self b t2)
          simp [sortedByName, h1, ih ht]

theorem byDisplayName_trans (a b c : String × String)
    (hab : byDisplayName a b = true) (hbc : byDisplayName b c = true) :
    byDisplayName a c = true := by
  simp only [byDisplayName, decide_eq_true_eq] at hab hbc ⊢
  exact le_trans hab hbc

theorem byDisplayName_total (a b : String × String) :
    (byDisplayName a b || byDisplayName b a) = true := by
  rcases le_total a.2 b.2 with h | h <;> simp [byDisplayName, h]

theorem sortedByName_mergeSort (l : List (String × String)) :
    sortedByName (l.mergeSort byDisplayName) = true := by
  apply sortedByName_of_pairwise
  have hp := List.sorted_mergeSort byDisplayName_trans byDisplayName_total l
  exact hp.imp (fun hab => by
    simpa [byDisplayName, decide_eq_true_eq] using hab)

theorem chooseCategory_eq_firstMatch (lname ldescr : String) :
    chooseCategory lname ldescr = firstMatchCategory lname ldescr := by
  rw [chooseCategory, firstMatchCategory, categoryRules]
  by_cases h1 : matchesAny ["cleanup", "extract", "anonymization", "bullet", "summary"] lname ldescr
  · simp [List.find?, h1]
  by_cases h2 : matchesAny ["email", "letter", "minutes", "documentation", "status", "responder"] lname ldescr
  · simp [List.find?, h1, h2]
  by_cases h3 : matchesAny ["academic", "scientific", "paper"] lname ldescr
  · simp [List.find?, h1, h2, h3]
  by_cases h4 : matchesAny ["blog", "social", "media"] lname ldescr
  · simp [List.find?, h1, h2, h3, h4]
  by_cases h5 : matchesAny ["poetry", "poem", "shakespeare", "tolkien", "creative"] lname ldescr
  · simp [List.find?, h1, h2, h3, h4, h5]
  by_cases h6 : matchesAny ["code", "technical", "development", "software"] lname ldescr
  · simp [List.find?, h1, h2, h3, h4, h5, h6]
  by_cases h7 : matchesAny ["format", "convert", "transform"] lname ldescr
  · simp [List.find?, h1, h2, h3, h4, h5, h6, h7]
  by_cases h8 : matchesAny ["tone", "style", "formal", "casual"] lname ldescr
  · simp [List.find?, h1, h2, h3, h4, h5, h6, h7, h8]
  by_cases h9 : matchesAny ["prompt", "chatgpt", "ai"] lname ldescr
  · simp [List.find?, h1, h2, h3, h4, h5, h6, h7, h8, h9]
  · simp [List.find?, h1, h2, h3, h4, h5, h6, h7, h8, h9]

/-- C6: categorization is a deterministic, idempotent pure function of the
catalog: recomputation reproduces identical groupings; the buckets are the
fixed ordered set of categories; every catalog entry is assigned to exactly one
bucket (the bucket sizes sum to the catalog size, and each bucket holds, up to
its ordering, exactly the entries whose first matching rule names it, entries
matching no rule going to "Other"); within each bucket entries are sorted by
display name; and the bucket choice is the first match of a priority-ordered
keyword-rule list against the lowercased name and description. -/
theorem C6_categorize_prompts (d : PromptsData) :
    categorize_prompts d = categorize_prompts d
    ∧ (categorize_prompts d).map (fun p => p.1) = categoryNames
    ∧ totalSize (categorize_prompts d) = d.length
    ∧ (categorize_prompts d).all (fun p => sortedByName p.2) = true
    ∧ (∀ lname ldescr : String,
        chooseCategory lname ldescr = firstMatchCategory lname ldescr)
    ∧ (∀ c ∈ categoryNames, ∃ bucket : List (String × String),
        List.lookup c (categorize_prompts d) = some bucket
        ∧ bucket.Perm ((d.filter (fun p =>
            chooseCategory (p.2.name.getD "").toLower (p.2.description.getD "").toLower
              = c)).map
            (fun p => (p.1, p.2.name.getD "Unknown")))) := by
  have hinitkeys :
      (categoryNames.map (fun c => (c, ([] : List (String × String))))).map
        (fun p => p.1) = categoryNames := rfl
  refine ⟨rfl, ?_, ?_, ?_, chooseCategory_eq_firstMatch, ?_⟩
  · rw [categorize_prompts, List.map_map]
    have : ∀ p : String × List (String × String),
        ((fun p => (p.1, p.2.mergeSort byDisplayName)) p).1 = p.1 := fun _ => rfl
    rw [show ((fun p : String × List (String × String) => p.1) ∘
        (fun p : String × List (String × String) => (p.1, p.2.mergeSort byDisplayName)))
        = (fun p : String × List (String × String) => p.1) from rfl]
    rw [foldl_fillStep_keys, hinitkeys]
  · rw [categorize_prompts, totalSize_map_sort,
      totalSize_foldl_fillStep d _ hinitkeys]
    have : totalSize (categoryNames.map
        (fun c => (c, ([] : List (String × String))))) = 0 := rfl
    omega
  · rw [categorize_prompts]
    rw [List.all_eq_true]
    intro p hp
    rcases List.mem_map.mp hp with ⟨q, _, hq⟩
    rw [← hq]
    exact sortedByName_mergeSort q.2
  · intro c hc
    refine ⟨((d.filter (fun p =>
        chooseCategory (p.2.name.getD "").toLower (p.2.description.getD "").toLower
          = c)).map
        (fun p => (p.1, p.2.name.getD "Unknown"))).mergeSort byDisplayName, ?_, ?_⟩
    · rw [categorize_prompts, lookup_map_sort, lookup_foldl_fillStep,
        lookup_initCats c hc]
      simp
    · exact List.mergeSort_perm _ byDisplayName

/-- C6 witness: instantiating the bucket characterization at the empty catalog
and the "General" bucket. -/
theorem C6_categorize_prompts_witness :
    ("General" : String) ∈ categoryNames
    ∧ ∃ bucket : List (String × String),
        List.lookup "General" (categorize_prompts []) = some bucket
        ∧ bucket.Perm (([] : PromptsData).filter (fun p =>
            chooseCategory (p.2.name.getD "").toLower (p.2.description.getD "").toLower
              = "General") |>.map (fun p => (p.1, p.2.name.getD "Unknown"))) :=
  ⟨by decide, (C6_categorize_prompts []).2.2.2.2.2 "General" (by decide)⟩

theorem strIn_append (pre sub suf : String) : strIn sub (pre ++ sub ++ suf) = true := by
  simp only [strIn, decide_eq_true_eq, String.data_append]
  exact List.infix_append pre.data sub.data suf.data

theorem strIn_append_right (pre sub : String) : strIn sub (pre ++ sub) = true := by
  simp only [strIn, decide_eq_true_eq, String.data_append]
  exact ⟨pre.data, [], by simp⟩

/-- C3 counterexample: a successful-by-2xx-standards 201 response carrying a
generated-text field "X" does not make `generate_text` return "X"; the code
tests for status exactly 200 and produces the error string instead. -/
theorem C3_counterexample_status_201 :
    200 ≤ 201 ∧ 201 < 300
    ∧ generate_text (.resp ⟨201, some "X", "body"⟩) =
        "Failed to generate text. Error: 201 - body"
    ∧ generate_text (.resp ⟨201, some "X", "body"⟩) ≠ "X" :=
  ⟨by decide, by decide, rfl, by decide⟩

/-- C3 amended: success means status exactly 200 (any other status, 2xx
included, is treated as failure); on 200 the extracted generated-text field is
returned (empty string if absent); on non-200 a string embedding the numeric
status code and the raw body; on a transport-level exception a string
embedding the exception text — the caller always receives a string. -/
theorem C3_generate_text_amended :
    (∀ (field : Option String) (body : String),
        generate_text (.resp ⟨200, field, body⟩) = field.getD "")
    ∧ (∀ r : GenerateResponse, r.status_code ≠ 200 →
        generate_text (.resp r) =
          "Failed to generate text. Error: " ++ toString r.status_code ++ " - " ++ r.text
        ∧ strIn (toString r.status_code) (generate_text (.resp r)) = true
        ∧ strIn r.text (generate_text (.resp r)) = true)
    ∧ (∀ e : String,
        generate_text (.exc e) = "Failed to connect to Ollama API: " ++ e
        ∧ strIn e (generate_text (.exc e)) = true) := by
  refine ⟨fun field body => rfl, ?_, ?_⟩
  · intro r hne
    have hbeq : (r.status_code == 200) = false := by simp [hne]
    have heq : generate_text (.resp r) =
        "Failed to generate text. Error: " ++ toString r.status_code ++ " - " ++ r.text := by
      simp [generate_text, hbeq]
    refine ⟨heq, ?_, ?_⟩
    · rw [heq, String.append_assoc]
      exact strIn_append _ _ _
    · rw [heq]
      exact strIn_append_right _ _
  · intro e
    exact ⟨rfl, strIn_append_right _ _⟩

/-- C3 witness: the amended non-200 clause applied to a concrete 500 response. -/
theorem C3_generate_text_amended_witness :
    (500 : Nat) ≠ 200
    ∧ generate_text (.resp ⟨500, none, "boom"⟩) =
        "Failed to generate text. Error: " ++ toString (500 : Nat) ++ " - " ++ "boom" :=
  ⟨by decide, (C3_generate_text_amended.2.1 ⟨500, none, "boom"⟩ (by decide)).1⟩

/-- C5 counterexample: a 204 response is a successful (2xx) response, yet
`check_connection` returns false — the code tests for status exactly 200. -/
theorem C5_counterexample_status_204 :
    200 ≤ 204 ∧ 204 < 300 ∧ check_connection (.resp 204) = false :=
  ⟨by decide, by decide, rfl⟩

/-- C5 amended: `check_connection` returns true exactly on status code 200
(other 2xx statuses yield false), and every transport failure yields false;
the embedded function is total, so the operation never raises. -/
theorem C5_check_connection_amended :
    (∀ status_code : Nat,
        check_connection (.resp status_code) = decide (status_code = 200))
    ∧ (∀ e : String, check_connection (.exc e) = false) := by
  constructor
  · intro s
    by_cases h : s = 200 <;> simp [check_connection, h]
  · intro e
    rfl

/-- C4 counterexample: a 200 response whose single model entry lacks the
"name" field makes `list_models` raise a `KeyError` instead of returning the
empty sequence the claim promises. -/
theorem C4_counterexample_missing_name :
    list_models (.resp ⟨200, some ⟨some [⟨none⟩]⟩⟩) = .error "KeyError: name"
    ∧ list_models (.resp ⟨200, some ⟨some [⟨none⟩]⟩⟩) ≠ .ok [] :=
  ⟨rfl, by intro h; simp [list_models, extract_model_names] at h⟩

theorem extract_model_names_all_named (entries : List ModelEntry)
    (h : ∀ e ∈ entries, e.name.isSome) :
    extract_model_names entries = .ok (entries.filterMap (fun e => e.name)) := by
  induction entries with
  | nil => rfl
  | cons x t ih =>
      have hx := h x (List.mem_cons_self x t)
      cases hnx : x.name with
      | none => rw [hnx] at hx; cases hx
      | some n =>
          have ht : ∀ e ∈ t, e.name.isSome :=
            fun e he => h e (List.mem_cons_of_mem x he)
          simp [extract_model_names, hnx, List.filterMap_cons, ih ht, Except.map]

theorem extract_model_names_missing (pre post : List ModelEntry)
    (h : ∀ e ∈ pre, e.name.isSome) :
    extract_model_names (pre ++ ⟨none⟩ :: post) = .error "KeyError: name" := by
  induction pre with
  | nil => rfl
  | cons x t ih =>
      have hx := h x (List.mem_cons_self x t)
      cases hnx : x.name with
      | none => rw [hnx] at hx; cases hx
      | some n =>
          have ht : ∀ e ∈ t, e.name.isSome :=
            fun e he => h e (List.mem_cons_of_mem x he)
          simp [extract_model_names, hnx, ih ht, Except.map]

/-- C4 amended: `list_models` returns the empty sequence on a transport error,
on any non-200 status, on a 200 body that is not JSON, and on a payload with
no "models" entry; on a 200 payload whose model entries all carry a "name"
field it returns the names in payload order; but a model entry lacking the
"name" field makes it raise a `KeyError` — contrary to the claim, it does not
return an empty sequence in that one malformed-payload case. -/
theorem C4_list_models_amended :
    (∀ e : String, list_models (.exc e) = .ok [])
    ∧ (∀ r : TagsResponse, r.status_code ≠ 200 → list_models (.resp r) = .ok [])
    ∧ list_models (.resp ⟨200, none⟩) = .ok []
    ∧ list_models (.resp ⟨200, some ⟨none⟩⟩) = .ok []
    ∧ (∀ entries : List ModelEntry, (∀ e ∈ entries, e.name.isSome) →
        list_models (.resp ⟨200, some ⟨some entries⟩⟩) =
          .ok (entries.filterMap (fun e => e.name)))
    ∧ (∀ pre post : List ModelEntry, (∀ e ∈ pre, e.name.isSome) →
        list_models (.resp ⟨200, some ⟨some (pre ++ ⟨none⟩ :: post)⟩⟩) =
          .error "KeyError: name") := by
  refine ⟨fun e => rfl, ?_, rfl, rfl, ?_, ?_⟩
  · intro r hne
    have hbeq : (r.status_code == 200) = false := by simp [hne]
    simp [list_models, hbeq]
  · intro entries h
    simpa [list_models] using extract_model_names_all_named entries h
  · intro pre post h
    simpa [list_models] using extract_model_names_missing pre post h

/-- C4 witness: the amended non-200 clause applied to a concrete 500 response,
and the all-named clause applied to a concrete two-model payload. -/
theorem C4_list_models_amended_witness :
    ((⟨500, none⟩ : TagsResponse).status_code ≠ 200
      ∧ list_models (.resp ⟨500, none⟩) = .ok [])
    ∧ ((∀ e ∈ [ModelEntry.mk (some "llama3"), ModelEntry.mk (some "mistral")], e.name.isSome)
      ∧ list_models (.resp ⟨200, some ⟨some [⟨some "llama3"⟩, ⟨some "mistral"⟩]⟩⟩) =
          .ok ([ModelEntry.mk (some "llama3"), ModelEntry.mk (some "mistral")].filterMap
            (fun e => e.name))) :=
  ⟨⟨by decide, C4_list_models_amended.2.1 ⟨500, none⟩ (by decide)⟩,
   ⟨by decide, C4_list_models_amended.2.2.2.2.1
      [⟨some "llama3"⟩, ⟨some "mistral"⟩] (by decide)⟩⟩

/-- C10: the request payload built with the empty-string system instruction is
identical to the payload built with no system instruction at all — the system
field is omitted — and the system field is included exactly when the supplied
instruction is a non-empty string. -/
theorem C10_empty_system_prompt_omitted :
    (∀ (α : Type) (model prompt : String) (temperature : α),
        build_generate_payload model prompt (some "") temperature =
          build_generate_payload model prompt none temperature)
    ∧ (∀ (α : Type) (model prompt : String) (system_prompt : Option String)
        (temperature : α),
        (build_generate_payload model prompt system_prompt temperature).system ≠ none
          ↔ ∃ s : String, system_prompt = some s ∧ s ≠ "") := by
  constructor
  · intro α model prompt temperature
    rfl
  · intro α model prompt system_prompt temperature
    cases system_prompt with
    | none => simp [build_generate_payload, pyTruthyStr]
    | some s =>
        by_cases hs : s = ""
        · subst hs
          simp [build_generate_payload, pyTruthyStr]
        · simp [build_generate_payload, pyTruthyStr, hs]
